import Mathlib

/-!
Verification of the RavenCare triage core against its specification.

This file shallowly embeds the parts of the repository that the claims
touch:

* `src/src/services/doctor_matcher.py` — the matching engine
  (`DoctorMatcher.find_best_doctor`), including specialty resolution,
  the eight weighted scoring factors, and result annotation;
* `src/src/services/advanced_matcher.py` — the subspecialty hint
  extractor (`AdvancedMatchingFeatures.extract_subspecialty_hints`) with
  its full static keyword table, and the severity classifier
  (`calculate_condition_severity`);
* `src/src/triage_orchestrator.py` — the per-subject pipeline
  (`TriageOrchestrator.process_patient`) and the batch loop in `run`;
* `src/app.py` — the web background runner (`run_triage_background`),
  the run-status flag and the `start_triage` endpoint.

Python dictionaries with a fixed set of accessed keys are modelled as
structures with `Option` fields (`.get(k)` is the field itself,
`.get(k, d)` is `Option.getD`); dict iteration order is modelled by
association lists; stage calls that may raise are modelled as functions
into `Except String`; Python floats are modelled as exact rationals.
-/

namespace RavenCare

/-! ### Python string primitives used by the sources -/

/-- Python `str.lower()` (ASCII, which covers all data in the repo). -/
def pyLower (s : String) : String := ⟨s.data.map Char.toLower⟩

/-- Helper for `pyTitle`: the Boolean records whether the previous
character was alphabetic (i.e. whether we are inside a word). -/
def pyTitleAux : Bool → List Char → List Char
  | _, [] => []
  | prevAlpha, c :: rest =>
    (if c.isAlpha then (if prevAlpha then c.toLower else c.toUpper) else c) ::
      pyTitleAux c.isAlpha rest

/-- Python `str.title()`: first letter of every alphabetic run is
upper-cased, the rest lower-cased. -/
def pyTitle (s : String) : String := ⟨pyTitleAux false s.data⟩

/-- Test `startsWithChars a b`: `a` is an initial segment of `b`. -/
def startsWithChars : List Char → List Char → Bool
  | [], _ => true
  | _ :: _, [] => false
  | x :: xs, y :: ys => x = y && startsWithChars xs ys

/-- Test `containsChars a b`: `a` occurs contiguously inside `b`. -/
def containsChars (a : List Char) : List Char → Bool
  | [] => startsWithChars a []
  | y :: ys => startsWithChars a (y :: ys) || containsChars a ys

/-- Python `a in b` on strings: `a` occurs as a contiguous substring of `b`. -/
def substrOf (a b : String) : Bool := containsChars a.data b.data

/-- Helper for `pySplitWs`: accumulates the current word reversed. -/
def pySplitWsAux : List Char → List Char → List String
  | [], cur => if cur.isEmpty then [] else [⟨cur.reverse⟩]
  | c :: rest, cur =>
    if c.isWhitespace then
      if cur.isEmpty then pySplitWsAux rest [] else ⟨cur.reverse⟩ :: pySplitWsAux rest []
    else pySplitWsAux rest (c :: cur)

/-- Python `str.split()` with no argument: split on whitespace runs,
discarding empty pieces. -/
def pySplitWs (s : String) : List String := pySplitWsAux s.data []

/-- Python `' '.join(xs)`. -/
def joinSpace : List String → String
  | [] => ""
  | [s] => s
  | s :: rest => s ++ " " ++ joinSpace rest

/-- Python `s.replace('_', ' ')` (single-character replacement). -/
def replaceUnderscore (s : String) : String :=
  ⟨s.data.map (fun c => if c = '_' then ' ' else c)⟩

/-- Python `round` to the nearest integer with ties to even
(banker's rounding), on exact rationals. -/
def pyRoundHalfEven (q : ℚ) : ℤ :=
  let f := ⌊q⌋
  let r := q - f
  if r < 1/2 then f
  else if 1/2 < r then f + 1
  else if f % 2 = 0 then f else f + 1

/-- Python `round(q, 2)`. -/
def pyRound2 (q : ℚ) : ℚ := (pyRoundHalfEven (q * 100) : ℚ) / 100

/-- Truthiness of an optional string (`if s:` — `None` and `""` are falsy). -/
def pyTruthyStr (o : Option String) : Bool := o.getD "" ≠ ""

/-- Truthiness of an optional list (`if l:` — `None` and `[]` are falsy). -/
def pyTruthyList (o : Option (List String)) : Bool := !(o.getD []).isEmpty

/-! ### Data model of the matching engine (`doctor_matcher.py`) -/

/-- Value stored under `details['urgency_experience_match']`:
the source stores Python `True` on the high-urgency branch and the
string `'routine'` on the low-urgency branch. -/
inductive UrgMatch
  | yes
  | routine
deriving DecidableEq

/-- The per-factor breakdown dict `details` built by
`find_best_doctor`; keys that are only conditionally inserted are
`Option` fields. -/
structure Details where
  slot_match : String
  language_match : Bool
  rating_score : ℚ
  experience_years : ℤ
  sub_spec_match : Option String
  has_awards : Option Bool
  age_appropriate : Option String
  urgency_experience_match : Option UrgMatch
deriving DecidableEq

/-- A doctor record as read from the catalog JSON, together with the
three annotation keys that `find_best_doctor` adds to the winning copy
(absent on catalog entries). -/
structure DoctorData where
  name : String := ""
  slots : List String := []
  languages_spoken : List String := []
  patient_rating : ℚ := 0
  experience_years : ℤ := 0
  sub_specialization : String := ""
  awards : List String := []
  match_score : Option ℚ := none
  match_details : Option Details := none
  match_quality : Option String := none
deriving DecidableEq

/-- A department entry of the catalog (`department.get('doctors', [])`). -/
structure Department where
  doctors : List DoctorData := []
deriving DecidableEq

/-- The argument tuple of `find_best_doctor`. -/
structure MatchArgs where
  specialty : String
  preferred_slot : String
  patient_language : String
  urgency_score : ℤ := 50
  patient_age : Option ℤ := none
  sub_specialization_hint : Option String := none
  patient_conditions : Option (List String) := none
deriving DecidableEq

/-- Insertion-ordered dict lookup (`db[k]` guarded by `k in db`). -/
def lookupKey {α : Type} (db : List (String × α)) (k : String) : Option α :=
  (db.find? (fun kv => kv.1 = k)).map Prod.snd

/-- The fuzzy-fallback loop of `find_best_doctor` (lines 108–116): the
first key, in catalog iteration order, whose lower-cased form contains
or is contained in the lower-cased requested specialty. -/
def fuzzyResolve {α : Type} (db : List (String × α)) (specialty : String) : Option α :=
  (db.find? (fun kv =>
    substrOf (pyLower specialty) (pyLower kv.1) ||
    substrOf (pyLower kv.1) (pyLower specialty))).map Prod.snd

/-- Specialty resolution of `find_best_doctor` (lines 101–120):
title-normalize, exact key first, then fuzzy fallback. -/
def resolveDept {α : Type} (db : List (String × α)) (specialty : String) : Option α :=
  match lookupKey db (pyTitle specialty) with
  | some dept => some dept
  | none => fuzzyResolve db specialty

/-! ### The eight scoring factors (`find_best_doctor`, lines 132–224) -/

/-- Factor 1 base credit: 40 for an exact preferred-slot hit, 20 for
having any slots at all, 0 for none (lines 138–148). -/
def slotBaseScore (preferred_slot : String) (d : DoctorData) : ℚ :=
  if preferred_slot ∈ d.slots then 40
  else if d.slots ≠ [] then 20
  else 0

/-- The `details['slot_match']` label set alongside factor 1. -/
def slotMatchLabel (preferred_slot : String) (d : DoctorData) : String :=
  if preferred_slot ∈ d.slots then "exact"
  else if d.slots ≠ [] then "alternative"
  else "none"

/-- Factor 1 with the urgency boost: `slot_score *= 1.5` whenever
`urgency_score >= 70` (lines 150–153). -/
def slotAvailabilityScore (preferred_slot : String) (urgency_score : ℤ)
    (d : DoctorData) : ℚ :=
  if urgency_score ≥ 70 then slotBaseScore preferred_slot d * (3/2)
  else slotBaseScore preferred_slot d

/-- Factor 5: sub-specialization alignment (lines 176–197). Returns the
contribution and the optional `details['sub_spec_match']` label. -/
def subSpecScore (hint : Option String) (conds : Option (List String))
    (d : DoctorData) : ℚ × Option String :=
  let sub_spec := pyLower d.sub_specialization
  if pyTruthyStr hint then
    let hint_lower := pyLower (hint.getD "")
    if substrOf hint_lower sub_spec ||
        (pySplitWs hint_lower).any (fun w => substrOf w sub_spec) then
      (30, some "strong")
    else if sub_spec ≠ "" then (10, some "partial")
    else (0, none)
  else if pyTruthyList conds then
    let condition_keywords := pyLower (joinSpace (conds.getD []))
    if (pySplitWs condition_keywords).any (fun w => substrOf w sub_spec) then
      (20, some "condition_based")
    else (0, none)
  else (0, none)

/-- Factor 7: age-appropriate care (lines 205–214). The pediatric check
compares against the title-normalized requested specialty. -/
def ageScore (patient_age : Option ℤ) (specialty_normalized : String)
    (d : DoctorData) : ℚ × Option String :=
  match patient_age with
  | none => (0, none)
  | some age =>
    if age < 18 ∧ specialty_normalized = "Pediatrics" then (10, some "pediatric")
    else if age ≥ 65 ∧ d.experience_years ≥ 10 then (5, some "geriatric_experienced")
    else (0, none)

/-- Factor 8: urgency/experience alignment (lines 216–224). -/
def urgencyExpScore (urgency_score : ℤ) (d : DoctorData) : ℚ × Option UrgMatch :=
  if urgency_score ≥ 80 ∧ d.experience_years ≥ 15 then (10, some UrgMatch.yes)
  else if urgency_score < 50 ∧ d.experience_years < 10 then (5, some UrgMatch.routine)
  else (0, none)

/-- The body of the scoring loop of `find_best_doctor` for one doctor
(lines 132–224): total score and the `details` dict. -/
def scoreDoctor (a : MatchArgs) (specialty_normalized : String)
    (d : DoctorData) : ℚ × Details :=
  let slot_score := slotAvailabilityScore a.preferred_slot a.urgency_score d
  let lang := a.patient_language ∈ d.languages_spoken
  let language_score : ℚ := if lang then 25 else 0
  let rating_score : ℚ := d.patient_rating * 4
  let experience_score : ℚ := ((min d.experience_years 15 : ℤ) : ℚ)
  let sub := subSpecScore a.sub_specialization_hint a.patient_conditions d
  let awards_score : ℚ :=
    if d.awards ≠ [] then ((min (d.awards.length * 5) 10 : ℕ) : ℚ) else 0
  let age := ageScore a.patient_age specialty_normalized d
  let urg := urgencyExpScore a.urgency_score d
  (slot_score + language_score + rating_score + experience_score +
      sub.1 + awards_score + age.1 + urg.1,
   { slot_match := slotMatchLabel a.preferred_slot d
     language_match := lang
     rating_score := d.patient_rating
     experience_years := d.experience_years
     sub_spec_match := sub.2
     has_awards := if d.awards ≠ [] then some true else none
     age_appropriate := age.2
     urgency_experience_match := urg.2 })

/-- One iteration of the best-doctor selection loop: replace the current
best only on a strictly greater score (line 227, `score > best_score`). -/
def scanStep (a : MatchArgs) (specialty_normalized : String)
    (st : Option (DoctorData × Details) × ℚ) (d : DoctorData) :
    Option (DoctorData × Details) × ℚ :=
  let sc := scoreDoctor a specialty_normalized d
  if sc.1 > st.2 then (some (d, sc.2), sc.1) else st

/-- The selection loop over a department's doctors, starting from
`best_doctor = None`, `best_score = -1` (lines 128–230). -/
def scanDoctors (a : MatchArgs) (specialty_normalized : String)
    (doctors : List DoctorData) : Option (DoctorData × Details) × ℚ :=
  doctors.foldl (scanStep a specialty_normalized) (none, -1)

/-- The quality tier bands applied to the winning score (lines 236–241). -/
def matchQuality (best_score : ℚ) : String :=
  if best_score ≥ 100 then "excellent"
  else if best_score ≥ 70 then "good"
  else if best_score ≥ 50 then "fair"
  else "low"

/-- The metadata written onto the winning copy (lines 232–241). -/
def annotate (d : DoctorData) (best_score : ℚ) (det : Details) : DoctorData :=
  { d with
    match_score := some (pyRound2 best_score)
    match_details := some det
    match_quality := some (matchQuality best_score) }

/-- Embeds `DoctorMatcher.find_best_doctor` (lines 67–243): resolve the
specialty, score every doctor of the resolved department, and return an
annotated copy of the winner, or `none`. An empty doctor list falls out
of the loop with `best_doctor = None`, exactly as in the source. -/
def find_best_doctor (db : List (String × Department)) (a : MatchArgs) :
    Option DoctorData :=
  match resolveDept db a.specialty with
  | none => none
  | some department =>
    match scanDoctors a (pyTitle a.specialty) department.doctors with
    | (none, _) => none
    | (some (d, det), best_score) => some (annotate d best_score det)

/-! ### Subspecialty hint extractor (`advanced_matcher.py`) -/

/-- The static table `AdvancedMatchingFeatures.SUBSPECIALTY_KEYWORDS`
(lines 22–146), in definition order. -/
def SUBSPECIALTY_KEYWORDS : List (String × List (String × List String)) :=
  [("Cardiology",
    [("interventional",
      ["angioplasty", "stent", "catheterization", "coronary",
       "heart attack", "myocardial infarction", "acute coronary"]),
     ("electrophysiology",
      ["arrhythmia", "palpitations", "irregular heartbeat",
       "atrial fibrillation", "afib", "flutter", "tachycardia",
       "bradycardia", "heart rhythm"]),
     ("heart_failure",
      ["shortness of breath", "swelling", "edema", "fatigue",
       "weak heart", "heart failure", "cardiomyopathy"]),
     ("congenital",
      ["birth defect", "congenital", "hole in heart", "murmur"])]),
   ("Gastroenterology",
    [("liver",
      ["jaundice", "hepatitis", "cirrhosis", "liver",
       "yellow skin", "ascites", "liver disease"]),
     ("inflammatory_bowel",
      ["crohn", "colitis", "inflammatory bowel", "ibd",
       "bloody stool", "chronic diarrhea"]),
     ("pancreas",
      ["pancreatitis", "pancreas", "diabetes"]),
     ("acid_reflux",
      ["gerd", "acid reflux", "heartburn", "esophagus"])]),
   ("Neurology",
    [("stroke",
      ["stroke", "paralysis", "facial drooping", "slurred speech",
       "sudden weakness", "tia", "transient ischemic"]),
     ("epilepsy",
      ["seizure", "epilepsy", "convulsion", "fits"]),
     ("migraine",
      ["migraine", "severe headache", "visual aura"]),
     ("movement_disorders",
      ["parkinson", "tremor", "movement disorder", "dystonia"]),
     ("dementia",
      ["alzheimer", "dementia", "memory loss", "cognitive decline"])]),
   ("Orthopedics",
    [("sports",
      ["sports injury", "ligament tear", "acl", "mcl",
       "meniscus", "athletic injury"]),
     ("spine",
      ["back pain", "spine", "disc", "herniated", "sciatica",
       "spinal", "vertebra"]),
     ("joint_replacement",
      ["knee replacement", "hip replacement", "arthritis",
       "joint pain", "osteoarthritis"]),
     ("trauma",
      ["fracture", "broken bone", "trauma", "injury"])]),
   ("Pulmonology",
    [("asthma",
      ["asthma", "wheezing", "breathing difficulty", "inhaler"]),
     ("copd",
      ["copd", "emphysema", "chronic bronchitis", "smoker"]),
     ("sleep",
      ["sleep apnea", "snoring", "cpap"]),
     ("interstitial",
      ["fibrosis", "interstitial lung", "pulmonary fibrosis"])]),
   ("Psychiatry",
    [("depression",
      ["depression", "low mood", "sadness", "hopelessness",
       "loss of interest", "suicidal"]),
     ("anxiety",
      ["anxiety", "panic", "worry", "nervousness", "ocd"]),
     ("bipolar",
      ["bipolar", "manic", "mood swings"]),
     ("psychosis",
      ["schizophrenia", "psychosis", "hallucination", "delusion"])]),
   ("Dermatology",
    [("acne",
      ["acne", "pimples", "blackheads", "breakout"]),
     ("psoriasis",
      ["psoriasis", "scaly skin", "plaque"]),
     ("skin_cancer",
      ["mole", "melanoma", "skin cancer", "changing spot"]),
     ("eczema",
      ["eczema", "atopic dermatitis", "itchy rash"])]),
   ("ENT",
    [("hearing",
      ["hearing loss", "deaf", "tinnitus", "ringing in ear"]),
     ("sinus",
      ["sinusitis", "sinus", "nasal congestion"]),
     ("throat",
      ["sore throat", "tonsillitis", "hoarseness", "voice problem"])])]

/-- The list `AdvancedMatchingFeatures.EMERGENCY_KEYWORDS` (lines 149–153). -/
def EMERGENCY_KEYWORDS : List String :=
  ["chest pain", "heart attack", "stroke", "seizure",
   "severe bleeding", "difficulty breathing", "unconscious",
   "severe pain", "suicide", "overdose", "trauma"]

/-- Python `sum(1 for keyword in keywords if keyword.lower() in text)`. -/
def hitCount (text : String) (keywords : List String) : ℕ :=
  keywords.countP (fun kw => substrOf (pyLower kw) text)

/-- One comparison step of Python `max(..., key=lambda x: x[1])`: the
accumulator is replaced only by a strictly greater item. -/
def maxStep (acc y : String × ℕ) : String × ℕ := if y.2 > acc.2 then y else acc

/-- Python `max(items, key=lambda x: x[1])` over a nonempty list:
keeps the current maximum unless a later item is strictly greater, so
the first maximal item wins. -/
def pickMaxEntry : List (String × ℕ) → Option (String × ℕ)
  | [] => none
  | x :: xs => some (xs.foldl maxStep x)

/-- The formatting of a winning table key on return (line 201):
`best_match[0].replace('_', ' ').title()`. -/
def formatHint (key : String) : String := pyTitle (replaceUnderscore key)

/-- Embeds `AdvancedMatchingFeatures.extract_subspecialty_hints`
(lines 155–203): normalize the specialty key, count keyword hits per
subspecialty over the lower-cased concatenation of symptoms and
conditions, keep the positive counts in table order, and return the
first maximum, formatted. -/
def extract_subspecialty_hints (symptoms : String) (specialty : String)
    (conditions : List String) : Option String :=
  match lookupKey SUBSPECIALTY_KEYWORDS (pyTitle specialty) with
  | none => none
  | some subs =>
    let text := pyLower (symptoms ++ " " ++ joinSpace conditions)
    let counted := subs.map (fun kv => (kv.1, hitCount text kv.2))
    let subspecialty_matches := counted.filter (fun x => 0 < x.2)
    match pickMaxEntry subspecialty_matches with
    | none => none
    | some best => some (formatHint best.1)

/-- The emergency-keyword test of `calculate_condition_severity`
(lines 224–227). -/
def hasEmergencyKeyword (symptoms : String) : Bool :=
  EMERGENCY_KEYWORDS.any (fun kw => substrOf kw (pyLower symptoms))

/-- Embeds `AdvancedMatchingFeatures.calculate_condition_severity`
(lines 205–236). -/
def calculate_condition_severity (symptoms : String) (urgency_score : ℤ) :
    String :=
  if hasEmergencyKeyword symptoms ∨ urgency_score ≥ 90 then "critical"
  else if urgency_score ≥ 70 then "high"
  else if urgency_score ≥ 40 then "moderate"
  else "low"

/-! ### Pipeline orchestrator (`triage_orchestrator.py`) and web runner
(`app.py`)

The three assessment stages are external collaborators; they are
modelled as injected functions returning `Except String` (a raised
exception carries its message).  A stage entry stored in a result
record is either the parsed dict (`Except.ok`) or the error placeholder
`{'error': str(e)}` (`Except.error`). -/

/-- The patient-dict keys read by the pipeline. -/
structure Patient where
  name : Option String := none
  age : Option ℤ := none
  preferred_slot : Option String := none
  preferred_language : Option String := none
  pre_existing_conditions : Option (List String) := none
deriving DecidableEq

/-- The keys of the Gemini (mapping-stage) result dict that the
orchestrator reads. -/
structure GeminiResult where
  primary_specialty : Option String := none
  potential_conditions : Option (List String) := none
deriving DecidableEq

/-- The key of the Grok (urgency-stage) result dict that the
orchestrator reads. -/
structure GrokResult where
  urgency_score : Option ℤ := none
deriving DecidableEq

/-- The keys of the O4-Mini (evaluation-stage) result dict relevant
here.  The stage returns an open JSON record; its documented schema has
no `potential_conditions` key, but the field is carried as an `Option`
so that the spec's attribution of the hint to this stage can be stated
and compared against the code. -/
structure O4Result where
  final_specialty : Option String := none
  potential_conditions : Option (List String) := none
deriving DecidableEq

/-- Dict access `.get(key)` on a stage entry: an error placeholder dict
`{'error': msg}` has none of the stage keys, so every lookup on it
returns `None`. -/
def entryGet {α β : Type} (e : Except String α) (f : α → Option β) : Option β :=
  match e with
  | .error _ => none
  | .ok r => f r

/-- The argument tuple the orchestrator builds for
`find_best_doctor` (both `triage_orchestrator.py` lines 150–177 and
`app.py` lines 157–170). -/
structure MatchCall where
  specialty : Option String
  preferred_slot : String
  patient_language : String
  urgency_score : ℤ
  patient_age : Option ℤ
  sub_specialization_hint : Option String
  patient_conditions : List String
deriving DecidableEq

/-- The injected collaborators of a pipeline run: the three assessment
stages and the matching engine.  Each one may raise. -/
structure Stages where
  gemini : Patient → Except String GeminiResult
  grok : Patient → Except String GeminiResult → Except String GrokResult
  o4mini : Patient → Except String GeminiResult → Except String GrokResult →
    Except String O4Result
  matcher : MatchCall → Except String (Option DoctorData)

/-- The argument extraction for the matching step, verbatim from the
source: `specialty = o4.get('final_specialty', gemini.get('primary_specialty'))`,
hint = first entry of `gemini.get('potential_conditions', [])` if that
list is non-empty, urgency = `grok.get('urgency_score', 50)`, plus the
patient-dict defaults. -/
def matchCallOf (p : Patient) (g : Except String GeminiResult)
    (k : Except String GrokResult) (o : Except String O4Result) : MatchCall :=
  let specialty : Option String :=
    match entryGet o (fun r => r.final_specialty) with
    | some s => some s
    | none => entryGet g (fun r => r.primary_specialty)
  let potential_conditions := (entryGet g (fun r => r.potential_conditions)).getD []
  let sub_spec_hint : Option String :=
    match potential_conditions with
    | [] => none
    | c :: _ => some c
  { specialty := specialty
    preferred_slot := p.preferred_slot.getD "09:00"
    patient_language := p.preferred_language.getD "English"
    urgency_score := (entryGet k (fun r => r.urgency_score)).getD 50
    patient_age := p.age
    sub_specialization_hint := sub_spec_hint
    patient_conditions := p.pre_existing_conditions.getD [] }

instance {ε α : Type} [DecidableEq ε] [DecidableEq α] : DecidableEq (Except ε α) :=
  fun x y =>
    match x, y with
    | .ok a, .ok b =>
      if h : a = b then isTrue (by rw [h]) else isFalse (by simp [h])
    | .error a, .error b =>
      if h : a = b then isTrue (by rw [h]) else isFalse (by simp [h])
    | .ok _, .error _ => isFalse (by simp)
    | .error _, .ok _ => isFalse (by simp)

/-- One subject's result record (`result` dict of `process_patient`):
the patient, the three stage entries (parsed dict or error
placeholder), and the matched doctor. -/
structure TriageRecord where
  patient : Patient
  gemini : Except String GeminiResult
  grok : Except String GrokResult
  o4mini : Except String O4Result
  matched_doctor : Option DoctorData
deriving DecidableEq

/-- Embeds `TriageOrchestrator.process_patient` (lines 75–198): every stage
call sits in its own `try/except`; a failure stores the error
placeholder and the pipeline continues, the next stage receiving the
degraded entry; a matching-step exception stores
`matched_doctor = None` (lines 192–194). -/
def process_patient (st : Stages) (p : Patient) : TriageRecord :=
  let g := st.gemini p
  let k := st.grok p g
  let o := st.o4mini p g k
  let matched : Option DoctorData :=
    match st.matcher (matchCallOf p g k o) with
    | .ok d => d
    | .error _ => none
  { patient := p, gemini := g, grok := k, o4mini := o, matched_doctor := matched }

/-- The batch loop of `TriageOrchestrator.run` (lines 253–256): one
record appended per subject, in input order. -/
def runPipeline (st : Stages) (patients : List Patient) : List TriageRecord :=
  patients.map (process_patient st)

/-- The per-subject loop of `app.py`'s `run_triage_background`
(lines 104–207).  Unlike `process_patient`, the stage calls are *not*
individually guarded: an exception propagates to the outer handler
(line 276), ending the whole run.  Returns the records appended so far
and the uncaught exception, if any. -/
def runBGLoop (st : Stages) : List Patient → List TriageRecord →
    List TriageRecord × Option String
  | [], acc => (acc, none)
  | p :: rest, acc =>
    match st.gemini p with
    | .error e => (acc, some e)
    | .ok g =>
      match st.grok p (.ok g) with
      | .error e => (acc, some e)
      | .ok k =>
        match st.o4mini p (.ok g) (.ok k) with
        | .error e => (acc, some e)
        | .ok o =>
          match st.matcher (matchCallOf p (.ok g) (.ok k) (.ok o)) with
          | .error e => (acc, some e)
          | .ok d =>
            runBGLoop st rest
              (acc ++ [{ patient := p, gemini := .ok g, grok := .ok k,
                         o4mini := .ok o, matched_doctor := d }])

/-- Embeds `run_triage_background` restricted to the triage loop: the records
produced and the uncaught exception, if any. -/
def run_triage_background (st : Stages) (patients : List Patient) :
    List TriageRecord × Option String :=
  runBGLoop st patients []

/-- The module-level `processing_status` dict of `app.py`
(lines 35–42). -/
structure ProcessingStatus where
  is_running : Bool
  current_patient : ℕ
  total_patients : ℕ
  progress : ℕ
  current_step : String
  results : List TriageRecord
deriving DecidableEq

/-- The `/start_triage` endpoint (`app.py` lines 292–326): a request
while a run is active is rejected and changes nothing; otherwise the
status is reset and a background run is started (`True`). -/
def start_triage (s : ProcessingStatus) : Bool × ProcessingStatus :=
  if s.is_running then (false, s)
  else (true, { is_running := true, current_patient := 0, total_patients := 0,
                progress := 0, current_step := "starting", results := [] })

/-- The status effect of `run_triage_background` (`app.py`
lines 68–283): `is_running` is set on entry, `current_step` becomes
`'error'` when the body raises and `'complete'` otherwise, and the
`finally` block clears `is_running` on every exit path. -/
def run_triage_background_status (st : Stages) (patients : List Patient)
    (s : ProcessingStatus) : ProcessingStatus :=
  let s1 := { s with is_running := true, current_step := "initializing" }
  let r := run_triage_background st patients
  let s2 :=
    match r.2 with
    | some _ => { s1 with results := r.1, current_step := "error" }
    | none => { s1 with results := r.1, current_step := "complete",
                        progress := 100,
                        total_patients := patients.length,
                        current_patient := patients.length }
  { s2 with is_running := false }

/-! ### Heap model of the catalog for the frame property

`find_best_doctor` reads doctor dicts that live in the in-memory
catalog and annotates `doctor.copy()`, a fresh object.  To state that
the catalog objects themselves are never written, the dicts are given
explicit identities: a store of doctor objects, and a catalog mapping
each specialty to the ids of its doctors.  The copy made for the winner
is allocated at the end of the store. -/

/-- Dereference a doctor object id. -/
def storeGet (store : List DoctorData) (i : ℕ) : DoctorData := store.getD i {}

/-- The value-level catalog seen through a store. -/
def viewDB (store : List DoctorData) (db : List (String × List ℕ)) :
    List (String × Department) :=
  db.map (fun kv => (kv.1, { doctors := kv.2.map (storeGet store) }))

/-- Runs `find_best_doctor` on the object store: the same resolution and
scoring loop; the winner is copied (allocated as a new object) and the
annotations are written to the copy only.  Returns the store after the
call and the id of the returned object, if any. -/
def find_best_doctor_store (store : List DoctorData)
    (db : List (String × List ℕ)) (a : MatchArgs) :
    List DoctorData × Option ℕ :=
  match resolveDept db a.specialty with
  | none => (store, none)
  | some ids =>
    match scanDoctors a (pyTitle a.specialty) (ids.map (storeGet store)) with
    | (none, _) => (store, none)
    | (some (d, det), best_score) =>
      (store ++ [annotate d best_score det], some store.length)

/-! ### Claim-side definitions

The following definitions transcribe the spec's wording (not the code)
and are compared with the source-side definitions above. -/

/-- Spec §4.4: "specialty = evaluation.final_specialty, falling back to
mapping.primary_specialty if absent". -/
def claimedSpecialty (o : Except String O4Result)
    (g : Except String GeminiResult) : Option String :=
  match entryGet o (fun r => r.final_specialty) with
  | some s => some s
  | none => entryGet g (fun r => r.primary_specialty)

/-- Claim C4: "subspecialtyHint = the first entry of the evaluation
stage's potential-conditions list when that list is present and
non-empty (otherwise no hint)". -/
def claimedEvalHint (o : Except String O4Result) : Option String :=
  match entryGet o (fun r => r.potential_conditions) with
  | some (c :: _) => some c
  | _ => none

/-- The same extraction read off the *mapping* stage's record, which is
where the source actually takes it from. -/
def claimedMappingHint (g : Except String GeminiResult) : Option String :=
  match entryGet g (fun r => r.potential_conditions) with
  | some (c :: _) => some c
  | _ => none

/-- The `try/except` around the matching step: an exception yields
`matched_doctor = None`. -/
def exceptOrNone (e : Except String (Option DoctorData)) : Option DoctorData :=
  match e with
  | .ok d => d
  | .error _ => none

/-- Spec §4.2, transcribed: return the subspecialty with the strictly
greatest keyword-hit count, ties resolving to the subspecialty defined
first in the table; no hint when the specialty is absent from the table
or no keyword matches.  "First positive maximum" is rendered as the
first table entry whose hit count is positive and not exceeded by any
other entry. -/
def claimedHint (symptoms specialty : String) (conditions : List String) :
    Option String :=
  match lookupKey SUBSPECIALTY_KEYWORDS (pyTitle specialty) with
  | none => none
  | some subs =>
    let text := pyLower (symptoms ++ " " ++ joinSpace conditions)
    (subs.find? (fun kv => decide (0 < hitCount text kv.2) &&
        subs.all (fun kv2 => decide (hitCount text kv2.2 ≤ hitCount text kv.2)))).map
      (fun kv => formatHint kv.1)

/-- Recursive first-maximum selection, the bridge between the source's
`filter` + `max` and the claim's `find?` formulation. -/
def firstMax : List (String × ℕ) → Option (String × ℕ)
  | [] => none
  | x :: xs =>
    match firstMax xs with
    | none => if 0 < x.2 then some x else none
    | some m => if 0 < x.2 ∧ m.2 ≤ x.2 then some x else some m

/-- Spec §3 data model: ratings live in 0–5 and experience is a
non-negative year count.  Used as the well-formedness hypothesis of the
no-match characterization. -/
def dbWellFormed (db : List (String × Department)) : Prop :=
  ∀ kv ∈ db, ∀ d ∈ kv.2.doctors, 0 ≤ d.patient_rating ∧ 0 ≤ d.experience_years

instance (db : List (String × Department)) : Decidable (dbWellFormed db) := by
  unfold dbWellFormed
  infer_instance

/-! ### Concrete instances used by scenario claims, counterexamples and
witnesses -/

/-- The single candidate of the spec §8 scenario: slots `{"09:00"}`,
rating 4.5, 10 years of experience, no subspecialty label, no awards,
and a spoken language different from the request's. -/
def scenarioDoctor : DoctorData :=
  { name := "Dr. Meera Verma", slots := ["09:00"], languages_spoken := ["Hindi"],
    patient_rating := 9/2, experience_years := 10 }

/-- A catalog holding exactly the scenario candidate under Cardiology. -/
def scenarioDB : List (String × Department) :=
  [("Cardiology", { doctors := [scenarioDoctor] })]

/-- The spec §8 scenario request: preferred slot "09:00", a language the
candidate does not speak, urgency 50, no hint, no conditions, no age. -/
def scenarioArgs : MatchArgs :=
  { specialty := "Cardiology", preferred_slot := "09:00",
    patient_language := "English", urgency_score := 50 }

/-- The expected per-factor breakdown of the scenario. -/
def scenarioDetails : Details :=
  { slot_match := "exact", language_match := false, rating_score := 9/2,
    experience_years := 10, sub_spec_match := none, has_awards := none,
    age_appropriate := none, urgency_experience_match := none }

/-- Stage stubs whose urgency stage raises; used to exercise the web
runner on a failing batch. -/
def failingStages : Stages :=
  { gemini := fun _ => .ok { primary_specialty := some "Cardiology" }
    grok := fun _ _ => .error "boom"
    o4mini := fun _ _ _ => .ok {}
    matcher := fun _ => .ok none }

/-- A mapping-stage entry whose potential-conditions list starts with
"Hypertension". -/
def cexGemini : Except String GeminiResult :=
  .ok { primary_specialty := some "Cardiology",
        potential_conditions := some ["Hypertension"] }

/-- An urgency-stage entry with score 60. -/
def cexGrok : Except String GrokResult := .ok { urgency_score := some 60 }

/-- An evaluation-stage entry whose (hypothetical) potential-conditions
list starts with "Diabetes". -/
def cexO4 : Except String O4Result :=
  .ok { final_specialty := some "Cardiology",
        potential_conditions := some ["Diabetes"] }

/-- A doctor with slots but no slot matching "09:00": slot credit 20. -/
def altSlotDoctor : DoctorData := { slots := ["10:00"] }

/-- A one-candidate Dermatology catalog used by the C5 witness. -/
def witnessDB : List (String × Department) :=
  [("Dermatology", { doctors := [{ name := "Dr. R", patient_rating := 4,
                                   experience_years := 5 }] })]

/-- The C5 witness request. -/
def witnessArgs : MatchArgs :=
  { specialty := "Dermatology", preferred_slot := "09:00",
    patient_language := "English", urgency_score := 30 }

/-- A status dict with the run flag set; C8 witness input. -/
def busyStatus : ProcessingStatus :=
  { is_running := true, current_patient := 0, total_patients := 0,
    progress := 0, current_step := "processing_patient", results := [] }

/-! ## Theorems -/

/-- C1: Stage-failure containment.  As stated, the claim is false for
the web runner `run_triage_background` (`app.py` lines 104–283), one of
its two cited code paths: the stage calls there are not individually
guarded, so a raising urgency stage aborts the batch and the run
produces fewer records than subjects.  Concretely, with stages whose
urgency stage raises, a one-subject batch produces zero records, no
error placeholder, and the remaining stages never run. -/
theorem C1_counterexample :
    (run_triage_background failingStages [{}]).1.length ≠ ([({} : Patient)]).length ∧
    (run_triage_background failingStages [{}]).2 = some "boom" := by
  constructor
  · decide
  · rfl

/-- C1 (amended): containment as claimed holds for the orchestrator
pipeline (`TriageOrchestrator.process_patient` / `run`): whatever the
stages do — including raising, which surfaces as an `Except.error`
placeholder entry — every stage entry of the record equals the outcome
of invoking that stage on the (possibly degraded) previous entries, the
matching step always runs on the extracted arguments with its exception
contained to `matched_doctor = None`, and a run produces exactly one
record per input subject. -/
theorem C1_amended (st : Stages) (patients : List Patient) (p : Patient) :
    (runPipeline st patients).length = patients.length ∧
    (process_patient st p).gemini = st.gemini p ∧
    (process_patient st p).grok = st.grok p (st.gemini p) ∧
    (process_patient st p).o4mini =
      st.o4mini p (st.gemini p) (st.grok p (st.gemini p)) ∧
    (process_patient st p).matched_doctor =
      exceptOrNone (st.matcher (matchCallOf p (st.gemini p)
        (st.grok p (st.gemini p))
        (st.o4mini p (st.gemini p) (st.grok p (st.gemini p))))) := by
  refine ⟨?_, rfl, rfl, rfl, rfl⟩
  simp [runPipeline]

/-- C2: the spec §8 scenario: slot 40 + language 0 + rating 18 +
experience 10 = 68, tier "fair", returned as an annotated copy of the
single Cardiology candidate. -/
theorem C2_scenario :
    find_best_doctor scenarioDB scenarioArgs =
      some { scenarioDoctor with
             match_score := some 68
             match_details := some scenarioDetails
             match_quality := some "fair" } := by
  with_unfolding_all decide

/-- C3: urgency multiplier boundary.  For any candidate with non-zero
slot credit, the slot contribution (factor 1 of `scoreDoctor`) at
urgency 70 is exactly 1.5 times the base credit, at urgency 69 it is
the unmultiplied base credit, and moving from 69 to 70 strictly
increases it. -/
theorem C3_urgency_boundary (ps : String) (d : DoctorData)
    (h : slotBaseScore ps d ≠ 0) :
    (slotBaseScore ps d = 20 ∨ slotBaseScore ps d = 40) ∧
    slotAvailabilityScore ps 70 d = slotBaseScore ps d * (3/2) ∧
    slotAvailabilityScore ps 69 d = slotBaseScore ps d ∧
    slotAvailabilityScore ps 69 d < slotAvailabilityScore ps 70 d := by
  have hb : slotBaseScore ps d = 20 ∨ slotBaseScore ps d = 40 := by
    unfold slotBaseScore at h ⊢
    split_ifs at h ⊢ with h1 h2
    · right; rfl
    · left; rfl
    · exact absurd rfl h
  have h70 : slotAvailabilityScore ps 70 d = slotBaseScore ps d * (3/2) := by
    unfold slotAvailabilityScore
    rw [if_pos (by norm_num)]
  have h69 : slotAvailabilityScore ps 69 d = slotBaseScore ps d := by
    unfold slotAvailabilityScore
    rw [if_neg (by norm_num)]
  refine ⟨hb, h70, h69, ?_⟩
  rw [h69, h70]
  rcases hb with hb | hb <;> rw [hb] <;> norm_num

/-- Witness for C3 at a candidate holding only the slot "10:00" against
preferred slot "09:00" (slot credit 20). -/
theorem C3_urgency_boundary_witness :
    slotBaseScore "09:00" altSlotDoctor ≠ 0 ∧
    ((slotBaseScore "09:00" altSlotDoctor = 20 ∨
      slotBaseScore "09:00" altSlotDoctor = 40) ∧
     slotAvailabilityScore "09:00" 70 altSlotDoctor =
       slotBaseScore "09:00" altSlotDoctor * (3/2) ∧
     slotAvailabilityScore "09:00" 69 altSlotDoctor =
       slotBaseScore "09:00" altSlotDoctor ∧
     slotAvailabilityScore "09:00" 69 altSlotDoctor <
       slotAvailabilityScore "09:00" 70 altSlotDoctor) :=
  ⟨by with_unfolding_all decide,
   C3_urgency_boundary "09:00" altSlotDoctor (by with_unfolding_all decide)⟩

/-- C4: as stated, the claim is false: it attributes the
subspecialty-hint list to the evaluation stage, but both orchestrators
read `potential_conditions` from the mapping (Gemini) stage's record
(`triage_orchestrator.py` lines 156–161, `app.py` lines 158–159).  With
a mapping entry listing "Hypertension" first and an evaluation entry
listing "Diabetes" first, the hint passed to the matcher is
"Hypertension", not the claim's "Diabetes". -/
theorem C4_counterexample :
    (matchCallOf {} cexGemini cexGrok cexO4).sub_specialization_hint =
      some "Hypertension" ∧
    claimedEvalHint cexO4 = some "Diabetes" ∧
    (matchCallOf {} cexGemini cexGrok cexO4).sub_specialization_hint ≠
      claimedEvalHint cexO4 := by
  refine ⟨rfl, rfl, ?_⟩
  decide

/-- C4 (amended): the orchestrator invokes the Matching Engine with
specialty = the evaluation stage's `final_specialty` falling back to
the mapping stage's `primary_specialty` when absent, subspecialtyHint =
the first entry of the *mapping* stage's potential-conditions list when
present and non-empty, and urgencyScore = the urgency stage's
`urgency_score` defaulting to 50 when absent. -/
theorem C4_amended (p : Patient) (g : Except String GeminiResult)
    (k : Except String GrokResult) (o : Except String O4Result) (st : Stages) :
    (matchCallOf p g k o).specialty = claimedSpecialty o g ∧
    (matchCallOf p g k o).sub_specialization_hint = claimedMappingHint g ∧
    (matchCallOf p g k o).urgency_score =
      (entryGet k (fun r => r.urgency_score)).getD 50 ∧
    (process_patient st p).matched_doctor =
      exceptOrNone (st.matcher (matchCallOf p (st.gemini p)
        (st.grok p (st.gemini p))
        (st.o4mini p (st.gemini p) (st.grok p (st.gemini p))))) := by
  refine ⟨rfl, ?_, rfl, rfl⟩
  unfold matchCallOf claimedMappingHint
  rcases g with e | r
  · rfl
  · rcases hr : r.potential_conditions with _ | ⟨c, cs⟩ <;>
      simp [entryGet, hr]

/-- C7: severity classification is exactly the claimed banding:
"critical" iff an emergency keyword occurs in the lower-cased symptoms
or the score is ≥ 90, else "high" iff ≥ 70, else "moderate" iff ≥ 40,
else "low". -/
theorem C7_severity (symptoms : String) (u : ℤ) :
    (calculate_condition_severity symptoms u = "critical" ↔
      hasEmergencyKeyword symptoms = true ∨ 90 ≤ u) ∧
    (calculate_condition_severity symptoms u = "high" ↔
      ¬(hasEmergencyKeyword symptoms = true ∨ 90 ≤ u) ∧ 70 ≤ u) ∧
    (calculate_condition_severity symptoms u = "moderate" ↔
      ¬(hasEmergencyKeyword symptoms = true ∨ 90 ≤ u) ∧ ¬(70 ≤ u) ∧ 40 ≤ u) ∧
    (calculate_condition_severity symptoms u = "low" ↔
      ¬(hasEmergencyKeyword symptoms = true ∨ 90 ≤ u) ∧ ¬(70 ≤ u) ∧ ¬(40 ≤ u)) := by
  unfold calculate_condition_severity
  split_ifs with h1 h2 h3 <;>
    refine ⟨?_, ?_, ?_, ?_⟩ <;> simp_all

/-- C8: single-run exclusivity and clean exit: a start request while
the run flag is set is rejected with the status unchanged; the
background run clears the flag on every exit path (the `finally`
applies to both the normal and the exception outcome, which are both
covered by the arbitrary `Stages`), after which a new start request is
accepted. -/
theorem C8_single_run (s : ProcessingStatus) (h : s.is_running = true) :
    start_triage s = (false, s) ∧
    (∀ st : Stages, ∀ patients : List Patient, ∀ s0 : ProcessingStatus,
      (run_triage_background_status st patients s0).is_running = false ∧
      (start_triage (run_triage_background_status st patients s0)).1 = true) := by
  constructor
  · simp [start_triage, h]
  · intro st patients s0
    constructor
    · rfl
    · rfl

/-- Witness for C8 at a status whose run flag is set. -/
theorem C8_single_run_witness :
    busyStatus.is_running = true ∧
    (start_triage busyStatus = (false, busyStatus) ∧
     (∀ st : Stages, ∀ patients : List Patient, ∀ s0 : ProcessingStatus,
       (run_triage_background_status st patients s0).is_running = false ∧
       (start_triage (run_triage_background_status st patients s0)).1 = true)) :=
  ⟨rfl, C8_single_run busyStatus rfl⟩

/-- Mapping the values of the catalog does not change exact-key lookup
(resolution only inspects keys). -/
theorem lookupKey_mapSnd {α β : Type} (f : α → β) (db : List (String × α))
    (k : String) :
    lookupKey (db.map (fun kv => (kv.1, f kv.2))) k =
      (lookupKey db k).map f := by
  induction db with
  | nil => rfl
  | cons kv rest ih =>
    unfold lookupKey at ih ⊢
    by_cases hk : kv.1 = k
    · simp [List.find?_cons, hk]
    · simpa [List.find?_cons, hk] using ih

/-- Mapping the values of the catalog does not change the fuzzy
fallback (it only inspects keys). -/
theorem fuzzyResolve_mapSnd {α β : Type} (f : α → β) (db : List (String × α))
    (s : String) :
    fuzzyResolve (db.map (fun kv => (kv.1, f kv.2))) s =
      (fuzzyResolve db s).map f := by
  induction db with
  | nil => rfl
  | cons kv rest ih =>
    unfold fuzzyResolve at ih ⊢
    by_cases hk : (substrOf (pyLower s) (pyLower kv.1) ||
        substrOf (pyLower kv.1) (pyLower s)) = true
    · simp [List.find?_cons, hk]
    · simpa [List.find?_cons, hk] using ih

/-- Specialty resolution commutes with mapping the catalog's values. -/
theorem resolveDept_mapSnd {α β : Type} (f : α → β) (db : List (String × α))
    (s : String) :
    resolveDept (db.map (fun kv => (kv.1, f kv.2))) s =
      (resolveDept db s).map f := by
  unfold resolveDept
  rw [lookupKey_mapSnd]
  cases lookupKey db (pyTitle s) with
  | none => simpa using fuzzyResolve_mapSnd f db s
  | some dept => rfl

/-- C9: catalog frame property, on the object-store model: a call to
`find_best_doctor` leaves every existing catalog object exactly as it
was — the store after the call is the old store plus (at most) one
fresh object, namely the annotated copy of the winner, which is also
exactly the value the pure function returns; the returned id never
aliases a pre-existing object. -/
theorem C9_catalog_frame (store : List DoctorData)
    (db : List (String × List ℕ)) (a : MatchArgs) :
    find_best_doctor_store store db a =
      match find_best_doctor (viewDB store db) a with
      | none => (store, none)
      | some d => (store ++ [d], some store.length) := by
  unfold find_best_doctor_store find_best_doctor viewDB
  rw [resolveDept_mapSnd
    (fun ids => ({ doctors := ids.map (storeGet store) } : Department)) db
    a.specialty]
  cases hr : resolveDept db a.specialty with
  | none => rfl
  | some ids =>
    dsimp only [Option.map]
    cases hs : scanDoctors a (pyTitle a.specialty) (ids.map (storeGet store)) with
    | mk ob bs =>
      cases ob with
      | none => rfl
      | some pair => rfl

/-- Every scoring factor is non-negative for a doctor with
non-negative rating and experience, so the total is. -/
theorem scoreDoctor_nonneg (a : MatchArgs) (sn : String) (d : DoctorData)
    (h1 : 0 ≤ d.patient_rating) (h2 : 0 ≤ d.experience_years) :
    0 ≤ (scoreDoctor a sn d).1 := by
  have hslot : 0 ≤ slotAvailabilityScore a.preferred_slot a.urgency_score d := by
    unfold slotAvailabilityScore slotBaseScore
    split_ifs <;> norm_num
  have hlang : 0 ≤ (if a.patient_language ∈ d.languages_spoken then (25 : ℚ) else 0) := by
    split_ifs <;> norm_num
  have hrat : 0 ≤ d.patient_rating * 4 := by positivity
  have hexp : (0 : ℚ) ≤ ((min d.experience_years 15 : ℤ) : ℚ) := by
    have : (0 : ℤ) ≤ min d.experience_years 15 := le_min h2 (by norm_num)
    exact_mod_cast this
  have hsub : 0 ≤ (subSpecScore a.sub_specialization_hint a.patient_conditions d).1 := by
    simp only [subSpecScore]
    split_ifs <;> norm_num
  have haw : 0 ≤ (if d.awards ≠ [] then ((min (d.awards.length * 5) 10 : ℕ) : ℚ) else 0) := by
    split_ifs <;> positivity
  have hage : 0 ≤ (ageScore a.patient_age sn d).1 := by
    unfold ageScore
    rcases a.patient_age with _ | age
    · norm_num
    · dsimp only
      split_ifs <;> norm_num
  have hurg : 0 ≤ (urgencyExpScore a.urgency_score d).1 := by
    unfold urgencyExpScore
    split_ifs <;> norm_num
  unfold scoreDoctor
  dsimp only
  linarith

/-- One scan step never loses an already-selected best doctor. -/
theorem scanStep_isSome (a : MatchArgs) (sn : String)
    (st : Option (DoctorData × Details) × ℚ) (d : DoctorData)
    (h : st.1.isSome = true) : ((scanStep a sn st d).1).isSome = true := by
  unfold scanStep
  dsimp only
  split_ifs <;> simp_all

/-- The scan loop never loses an already-selected best doctor. -/
theorem scanFold_isSome (a : MatchArgs) (sn : String) (l : List DoctorData)
    (st : Option (DoctorData × Details) × ℚ) (h : st.1.isSome = true) :
    ((l.foldl (scanStep a sn) st).1).isSome = true := by
  induction l generalizing st with
  | nil => simpa using h
  | cons d rest ih => exact ih _ (scanStep_isSome a sn st d h)

/-- Over a non-empty doctor list whose head scores non-negatively, the
scan selects somebody: the head's score beats the initial `-1`. -/
theorem scanDoctors_isSome (a : MatchArgs) (sn : String) (d : DoctorData)
    (rest : List DoctorData) (h : 0 ≤ (scoreDoctor a sn d).1) :
    ((scanDoctors a sn (d :: rest)).1).isSome = true := by
  unfold scanDoctors
  rw [List.foldl_cons]
  apply scanFold_isSome
  have hgt : (scoreDoctor a sn d).1 > (-1 : ℚ) := by linarith
  simp [scanStep, hgt]

/-- A resolved department is a value of the catalog. -/
theorem resolveDept_mem {α : Type} (db : List (String × α)) (s : String)
    (dept : α) (h : resolveDept db s = some dept) : ∃ k, (k, dept) ∈ db := by
  unfold resolveDept lookupKey fuzzyResolve at h
  cases hf : db.find? (fun kv => kv.1 = pyTitle s) with
  | some kv =>
    rw [hf] at h
    have hmem := List.mem_of_find?_eq_some hf
    simp at h
    refine ⟨kv.1, ?_⟩
    have hkv : (kv.1, kv.2) ∈ db := by simpa using hmem
    rwa [h] at hkv
  | none =>
    rw [hf] at h
    cases hg : db.find? (fun kv =>
        substrOf (pyLower s) (pyLower kv.1) ||
        substrOf (pyLower kv.1) (pyLower s)) with
    | none =>
      rw [hg] at h
      simp at h
    | some kv =>
      rw [hg] at h
      have hmem := List.mem_of_find?_eq_some hg
      simp at h
      refine ⟨kv.1, ?_⟩
      have hkv : (kv.1, kv.2) ∈ db := by simpa using hmem
      rwa [h] at hkv

/-- C5: no-match characterization.  For a well-formed catalog (ratings
and experience non-negative, as the data model prescribes),
`find_best_doctor` returns `none` exactly when specialty resolution
(exact title-cased key, else the first substring-containment key in
catalog order) fails, or the resolved department has an empty candidate
list; every resolved non-empty department produces a match. -/
theorem C5_no_match_iff (db : List (String × Department)) (a : MatchArgs)
    (hwf : dbWellFormed db) :
    (find_best_doctor db a = none ↔
      resolveDept db a.specialty = none ∨
        ∃ dept, resolveDept db a.specialty = some dept ∧ dept.doctors = []) := by
  unfold find_best_doctor
  cases hr : resolveDept db a.specialty with
  | none => simp
  | some dept =>
    obtain ⟨k, hk⟩ := resolveDept_mem db a.specialty dept hr
    dsimp only
    constructor
    · intro hnone
      right
      refine ⟨dept, rfl, ?_⟩
      cases hd : dept.doctors with
      | nil => rfl
      | cons d rest =>
        exfalso
        have hwfd := hwf (k, dept) hk d (by rw [hd]; exact List.mem_cons_self d rest)
        have hnn := scoreDoctor_nonneg a (pyTitle a.specialty) d hwfd.1 hwfd.2
        have hsome := scanDoctors_isSome a (pyTitle a.specialty) d rest hnn
        rw [← hd] at hsome
        cases hs : scanDoctors a (pyTitle a.specialty) dept.doctors with
        | mk ob bs =>
          rw [hs] at hnone hsome
          cases ob with
          | none => simp at hsome
          | some pair =>
            rcases pair with ⟨dw, det⟩
            simp at hnone
    · intro hor
      rcases hor with hnone | ⟨dept2, hdept2, hempty⟩
      · cases hnone
      · cases hdept2
        rw [hempty]
        rfl

/-- Witness for C5 at a one-candidate well-formed catalog. -/
theorem C5_no_match_iff_witness :
    dbWellFormed witnessDB ∧
    (find_best_doctor witnessDB witnessArgs = none ↔
      resolveDept witnessDB witnessArgs.specialty = none ∨
        ∃ dept, resolveDept witnessDB witnessArgs.specialty = some dept ∧
          dept.doctors = []) :=
  ⟨by with_unfolding_all decide,
   C5_no_match_iff witnessDB witnessArgs (by with_unfolding_all decide)⟩

/-- A selected first maximum belongs to the list. -/
theorem firstMax_mem (l : List (String × ℕ)) (m : String × ℕ)
    (h : firstMax l = some m) : m ∈ l := by
  induction l generalizing m with
  | nil => cases h
  | cons x xs ih =>
    simp only [firstMax] at h
    cases hfm : firstMax xs with
    | none =>
      rw [hfm] at h
      dsimp at h
      split_ifs at h
      cases h
      exact List.mem_cons_self x xs
    | some m2 =>
      rw [hfm] at h
      dsimp at h
      split_ifs at h
      · cases h
        exact List.mem_cons_self x xs
      · cases h
        exact List.mem_cons_of_mem x (ih _ hfm)

/-- When no first maximum exists, every count is zero. -/
theorem firstMax_none (l : List (String × ℕ)) (h : firstMax l = none) :
    ∀ y ∈ l, y.2 = 0 := by
  induction l with
  | nil => intro y hy; cases hy
  | cons x xs ih =>
    simp only [firstMax] at h
    cases hfm : firstMax xs with
    | none =>
      rw [hfm] at h
      dsimp at h
      split_ifs at h with hx
      intro y hy
      rcases List.mem_cons.mp hy with rfl | hy2
      · omega
      · exact ih hfm y hy2
    | some m2 =>
      rw [hfm] at h
      dsimp at h
      split_ifs at h

/-- The first maximum bounds every count in the list. -/
theorem firstMax_bound (l : List (String × ℕ)) (m : String × ℕ)
    (h : firstMax l = some m) : ∀ y ∈ l, y.2 ≤ m.2 := by
  induction l generalizing m with
  | nil => cases h
  | cons x xs ih =>
    simp only [firstMax] at h
    cases hfm : firstMax xs with
    | none =>
      rw [hfm] at h
      dsimp at h
      split_ifs at h with hx
      cases h
      intro y hy
      rcases List.mem_cons.mp hy with rfl | hy2
      · exact le_refl _
      · have := firstMax_none xs hfm y hy2
        omega
    | some m2 =>
      rw [hfm] at h
      dsimp at h
      split_ifs at h with hcond
      · cases h
        intro y hy
        rcases List.mem_cons.mp hy with rfl | hy2
        · exact le_refl _
        · exact le_trans (ih _ hfm y hy2) hcond.2
      · cases h
        intro y hy
        rcases List.mem_cons.mp hy with rfl | hy2
        · have := ih _ hfm
          omega
        · exact ih _ hfm y hy2

/-- The `max` fold of the source over the positive-count entries,
expressed through `firstMax`. -/
theorem foldl_maxStep_filter (xs : List (String × ℕ)) (x : String × ℕ) :
    (xs.filter (fun y => 0 < y.2)).foldl maxStep x =
      match firstMax xs with
      | none => x
      | some m => if m.2 > x.2 then m else x := by
  induction xs generalizing x with
  | nil => rfl
  | cons y ys ih =>
    by_cases hy : 0 < y.2
    · rw [List.filter_cons_of_pos (by simpa using hy), List.foldl_cons, ih]
      simp only [firstMax]
      cases firstMax ys with
      | none =>
        dsimp only
        rw [if_pos hy]
        simp only [maxStep]
      | some m =>
        dsimp only
        by_cases hmy : m.2 ≤ y.2
        · rw [if_pos (⟨hy, hmy⟩ : 0 < y.2 ∧ m.2 ≤ y.2)]
          dsimp only
          simp only [maxStep]
          split_ifs <;> first | rfl | omega | (exfalso; omega)
        · have hc : ¬(0 < y.2 ∧ m.2 ≤ y.2) := by omega
          rw [if_neg hc]
          dsimp only
          simp only [maxStep]
          split_ifs <;> first | rfl | omega | (exfalso; omega)
    · rw [List.filter_cons_of_neg (by simpa using hy), ih]
      simp only [firstMax]
      cases firstMax ys with
      | none =>
        dsimp only
        rw [if_neg hy]
      | some m =>
        dsimp only
        have hc : ¬(0 < y.2 ∧ m.2 ≤ y.2) := by omega
        rw [if_neg hc]

/-- The source's `filter` + first-wins `max` is `firstMax`. -/
theorem pickMax_filter_eq_firstMax (l : List (String × ℕ)) :
    pickMaxEntry (l.filter (fun y => 0 < y.2)) = firstMax l := by
  induction l with
  | nil => rfl
  | cons x xs ih =>
    by_cases hx : 0 < x.2
    · rw [List.filter_cons_of_pos (by simpa using hx)]
      simp only [pickMaxEntry]
      rw [foldl_maxStep_filter]
      simp only [firstMax]
      cases firstMax xs with
      | none =>
        dsimp only
        rw [if_pos hx]
      | some m =>
        dsimp only
        by_cases hmx : m.2 ≤ x.2
        · rw [if_pos (⟨hx, hmx⟩ : 0 < x.2 ∧ m.2 ≤ x.2)]
          split_ifs <;> first | rfl | omega | (exfalso; omega)
        · have hc : ¬(0 < x.2 ∧ m.2 ≤ x.2) := by omega
          rw [if_neg hc]
          split_ifs <;> first | rfl | omega | (exfalso; omega)
    · rw [List.filter_cons_of_neg (by simpa using hx), ih]
      simp only [firstMax]
      cases firstMax xs with
      | none =>
        dsimp only
        rw [if_neg hx]
      | some m =>
        dsimp only
        have hc : ¬(0 < x.2 ∧ m.2 ≤ x.2) := by omega
        rw [if_neg hc]

/-- The result of `find?` only depends on the predicate's values on the list. -/
theorem find?_congrP {α : Type} (l : List α) (p q : α → Bool)
    (h : ∀ x ∈ l, p x = q x) : l.find? p = l.find? q := by
  induction l with
  | nil => rfl
  | cons a as ih =>
    have ha := h a (List.mem_cons_self a as)
    cases hq : q a with
    | true =>
      rw [List.find?_cons_of_pos as (by rw [ha, hq]),
        List.find?_cons_of_pos as hq]
    | false =>
      rw [List.find?_cons_of_neg as (by rw [ha, hq]; exact Bool.false_ne_true),
        List.find?_cons_of_neg as (by rw [hq]; exact Bool.false_ne_true)]
      exact ih (fun x hx => h x (List.mem_cons_of_mem a hx))

/-- The claim's "first positive maximum" rendered with `find?` is
`firstMax`. -/
theorem find?_isMax_eq_firstMax (l : List (String × ℕ)) :
    l.find? (fun x => decide (0 < x.2) &&
      l.all (fun y => decide (y.2 ≤ x.2))) = firstMax l := by
  induction l with
  | nil => rfl
  | cons x xs ih =>
    by_cases hmax : ∀ y ∈ xs, y.2 ≤ x.2
    · by_cases hx : 0 < x.2
      · have hpred : (decide (0 < x.2) &&
            (x :: xs).all (fun y => decide (y.2 ≤ x.2))) = true := by
          simp only [List.all_cons, Bool.and_eq_true, decide_eq_true_eq,
            List.all_eq_true]
          exact ⟨hx, le_refl _, fun y hy => hmax y hy⟩
        rw [List.find?_cons_of_pos xs hpred]
        simp only [firstMax]
        cases hfm : firstMax xs with
        | none =>
          dsimp only
          rw [if_pos hx]
        | some m =>
          dsimp only
          rw [if_pos (⟨hx, hmax m (firstMax_mem xs m hfm)⟩ :
            0 < x.2 ∧ m.2 ≤ x.2)]
      · have hpred : ¬ (decide (0 < x.2) &&
            (x :: xs).all (fun y => decide (y.2 ≤ x.2))) = true := by
          simp [hx]
        rw [List.find?_cons_of_neg xs hpred]
        rw [find?_congrP xs _ (fun z => decide (0 < z.2) &&
            xs.all (fun y => decide (y.2 ≤ z.2)))
          (by
            intro z hz
            have hx0 : x.2 = 0 := by omega
            simp [List.all_cons, hx0])]
        rw [ih]
        simp only [firstMax]
        cases hfm : firstMax xs with
        | none =>
          dsimp only
          rw [if_neg hx]
        | some m =>
          dsimp only
          have hc : ¬(0 < x.2 ∧ m.2 ≤ x.2) := by omega
          rw [if_neg hc]
    · push_neg at hmax
      obtain ⟨w, hw, hwx⟩ := hmax
      have hpx : ¬ (decide (0 < x.2) &&
          (x :: xs).all (fun y => decide (y.2 ≤ x.2))) = true := by
        intro hcontra
        rw [Bool.and_eq_true] at hcontra
        have hwle := List.all_eq_true.mp hcontra.2 w (List.mem_cons_of_mem x hw)
        simp at hwle
        omega
      rw [List.find?_cons_of_neg xs hpx]
      rw [find?_congrP xs _ (fun z => decide (0 < z.2) &&
          xs.all (fun y => decide (y.2 ≤ z.2)))
        (by
          intro z hz
          simp only [List.all_cons]
          by_cases hall : xs.all (fun y => decide (y.2 ≤ z.2)) = true
          · have hwz : w.2 ≤ z.2 := by
              simpa using (List.all_eq_true.mp hall) w hw
            have hxz : x.2 ≤ z.2 := by omega
            simp [hall, hxz]
          · have hfalse : xs.all (fun y => decide (y.2 ≤ z.2)) = false :=
              Bool.eq_false_iff.mpr hall
            simp [hfalse])]
      rw [ih]
      have hne : firstMax xs ≠ none := fun hfm =>
        absurd (firstMax_none xs hfm w hw) (by omega)
      simp only [firstMax]
      cases hfm : firstMax xs with
      | none => exact absurd hfm hne
      | some m =>
        have hbound := firstMax_bound xs m hfm w hw
        dsimp only
        have hc : ¬(0 < x.2 ∧ m.2 ≤ x.2) := by omega
        rw [if_neg hc]

/-- Evaluating `all` over a mapped list. -/
theorem all_map_general {α β : Type} (f : α → β) (l : List α) (p : β → Bool) :
    (l.map f).all p = l.all (fun x => p (f x)) := by
  induction l with
  | nil => rfl
  | cons a as ih => simp [List.all_cons, ih]

/-- The source's count–filter–max selection agrees with the claim's
first-positive-maximum `find?` selection, for any hit text and
subspecialty table. -/
theorem sourceSelect_eq_claimSelect (text : String)
    (subs : List (String × List String)) :
    (match pickMaxEntry
        ((subs.map (fun kv => (kv.1, hitCount text kv.2))).filter
          (fun x => 0 < x.2)) with
     | none => none
     | some best => some (formatHint best.1)) =
      (subs.find? (fun kv => decide (0 < hitCount text kv.2) &&
          subs.all (fun kv2 =>
            decide (hitCount text kv2.2 ≤ hitCount text kv.2)))).map
        (fun kv => formatHint kv.1) := by
  rw [pickMax_filter_eq_firstMax,
    ← find?_isMax_eq_firstMax (subs.map (fun kv => (kv.1, hitCount text kv.2)))]
  rw [List.find?_map]
  rw [find?_congrP subs _ (fun kv => decide (0 < hitCount text kv.2) &&
      subs.all (fun kv2 =>
        decide (hitCount text kv2.2 ≤ hitCount text kv.2)))
    (by
      intro kv hkv
      simp only [Function.comp]
      rw [all_map_general])]
  cases subs.find? (fun kv => decide (0 < hitCount text kv.2) &&
      subs.all (fun kv2 =>
        decide (hitCount text kv2.2 ≤ hitCount text kv.2))) with
  | none => rfl
  | some kv => rfl

/-- C6: the hint extractor returns no hint exactly when the specialty
is absent from the table or no keyword hits, and otherwise returns the
subspecialty with the strictly greatest hit count, ties resolving to
the one defined first in the table (formalized by equality with the
claim-side `claimedHint`); in particular, "severe chest pain and stent
needed" under Cardiology yields the interventional label. -/
theorem C6_hint_extraction (symptoms specialty : String)
    (conditions : List String) :
    extract_subspecialty_hints symptoms specialty conditions =
      claimedHint symptoms specialty conditions ∧
    extract_subspecialty_hints "severe chest pain and stent needed"
      "Cardiology" [] = some "Interventional" := by
  constructor
  · unfold extract_subspecialty_hints claimedHint
    cases hl : lookupKey SUBSPECIALTY_KEYWORDS (pyTitle specialty) with
    | none => rfl
    | some subs =>
      exact sourceSelect_eq_claimSelect
        (pyLower (symptoms ++ " " ++ joinSpace conditions)) subs
  · decide

/-- Every formatted table key is underscore-free and a fixpoint of
title-casing (finite check over the static table). -/
theorem table_format_ok :
    ∀ entry ∈ SUBSPECIALTY_KEYWORDS, ∀ kv ∈ entry.2,
      ('_' ∉ (formatHint kv.1).data) ∧
      pyTitle (formatHint kv.1) = formatHint kv.1 := by decide

/-- C10: whenever the extractor returns a hint, the string is a table
key with underscores replaced by spaces and each word title-cased — it
contains no underscore and is unchanged by further title-casing — and
the key `heart_failure` in particular formats as "Heart Failure". -/
theorem C10_hint_format (symptoms specialty : String)
    (conditions : List String) (h : String)
    (hres : extract_subspecialty_hints symptoms specialty conditions = some h) :
    (∃ entry ∈ SUBSPECIALTY_KEYWORDS, ∃ kv ∈ entry.2, h = formatHint kv.1) ∧
    ('_' ∉ h.data) ∧ pyTitle h = h ∧
    formatHint "heart_failure" = "Heart Failure" := by
  unfold extract_subspecialty_hints at hres
  cases hl : lookupKey SUBSPECIALTY_KEYWORDS (pyTitle specialty) with
  | none =>
    rw [hl] at hres
    cases hres
  | some subs =>
    rw [hl] at hres
    dsimp only at hres
    rw [pickMax_filter_eq_firstMax] at hres
    cases hfm : firstMax (subs.map (fun kv =>
        (kv.1, hitCount (pyLower (symptoms ++ " " ++ joinSpace conditions))
          kv.2))) with
    | none =>
      rw [hfm] at hres
      cases hres
    | some best =>
      rw [hfm] at hres
      dsimp only at hres
      injection hres with hres2
      subst hres2
      have hmem := firstMax_mem _ best hfm
      obtain ⟨kv, hkv, hfkv⟩ := List.mem_map.mp hmem
      have hfst : best.1 = kv.1 := by rw [← hfkv]
      -- the looked-up subspecialty list is a table entry
      unfold lookupKey at hl
      cases hfind : SUBSPECIALTY_KEYWORDS.find?
          (fun kv2 => kv2.1 = pyTitle specialty) with
      | none =>
        rw [hfind] at hl
        cases hl
      | some entry =>
        rw [hfind] at hl
        simp at hl
        have hentry := List.mem_of_find?_eq_some hfind
        have hfmt := table_format_ok entry hentry kv (by rw [hl]; exact hkv)
        refine ⟨⟨entry, hentry, kv, by rw [hl]; exact hkv, by rw [hfst]⟩,
          ?_, ?_, by decide⟩
        · rw [hfst]
          exact hfmt.1
        · rw [hfst]
          exact hfmt.2

/-- Witness for C10: the narrative "heart failure" under Cardiology
produces the formatted hint "Heart Failure". -/
theorem C10_hint_format_witness :
    extract_subspecialty_hints "heart failure" "Cardiology" [] =
      some "Heart Failure" ∧
    ((∃ entry ∈ SUBSPECIALTY_KEYWORDS, ∃ kv ∈ entry.2,
        "Heart Failure" = formatHint kv.1) ∧
     ('_' ∉ "Heart Failure".data) ∧
     pyTitle "Heart Failure" = "Heart Failure" ∧
     formatHint "heart_failure" = "Heart Failure") :=
  ⟨by decide,
   C10_hint_format "heart failure" "Cardiology" [] "Heart Failure" (by decide)⟩

end RavenCare
